import Mathlib

set_option maxRecDepth 100000

/-!
Shallow embedding of the marginfi Bank accounting core
(src/programs/marginfi/src/state/marginfi_group.rs) and proofs about it.

Machine arithmetic is modelled over Int: an I80F48 fixed-point number is its
raw 128-bit two's-complement bit value, and every checked operation tests the
128-bit range explicitly.  Operations the source performs without a check
(bare + and - on fixed-point values, the i64 subtraction feeding
accrue_interest, to_num conversions and the unwrap of the time delta) abort
the program on failure; those aborts are modelled as explicit fatal outcomes,
distinct from the MarginfiResult error returns.
-/

/-- Model of the fixed crate's I80F48 type: a signed 128-bit fixed-point
number with 48 fractional bits, represented by its raw bit value. -/
structure I80F48 where
  bits : Int
deriving DecidableEq

/-- Range of a signed 128-bit two's-complement value. -/
def fitsI128 (x : Int) : Prop :=
  -(2 ^ 127) ≤ x ∧ x < 2 ^ 127

instance (x : Int) : Decidable (fitsI128 x) := by
  unfold fitsI128; infer_instance

/-- Scale factor of I80F48: the value 1 is represented by 2^48 bits. -/
def fxScale : Int := 2 ^ 48

/-- Fixed-point constant one (I80F48::ONE). -/
def I80F48.one : I80F48 := ⟨fxScale⟩

/-- Checked fixed-point addition: bitwise exact, None on 128-bit overflow. -/
def I80F48.checked_add (a b : I80F48) : Option I80F48 :=
  if fitsI128 (a.bits + b.bits) then some ⟨a.bits + b.bits⟩ else none

/-- Checked fixed-point subtraction: bitwise exact, None on 128-bit overflow. -/
def I80F48.checked_sub (a b : I80F48) : Option I80F48 :=
  if fitsI128 (a.bits - b.bits) then some ⟨a.bits - b.bits⟩ else none

/-- Checked fixed-point multiplication: the full product keeps 96 fractional
bits, of which 48 are discarded (rounding toward negative infinity); None on
128-bit overflow of the result. -/
def I80F48.checked_mul (a b : I80F48) : Option I80F48 :=
  if fitsI128 (Int.fdiv (a.bits * b.bits) fxScale) then
    some ⟨Int.fdiv (a.bits * b.bits) fxScale⟩
  else none

/-- Checked fixed-point division: None on a zero divisor or on 128-bit
overflow of the quotient; the quotient is rounded toward negative infinity. -/
def I80F48.checked_div (a b : I80F48) : Option I80F48 :=
  if b.bits = 0 then none
  else if fitsI128 (Int.fdiv (a.bits * fxScale) b.bits) then
    some ⟨Int.fdiv (a.bits * fxScale) b.bits⟩
  else none

/-- Unchecked fixed-point addition (the bare + operator in the source): the
i128 bit sum; None models the overflow abort of a checked build. -/
def I80F48.unchecked_add (a b : I80F48) : Option I80F48 :=
  if fitsI128 (a.bits + b.bits) then some ⟨a.bits + b.bits⟩ else none

/-- Unchecked fixed-point subtraction (the bare - operator in the source): the
i128 bit difference; None models the overflow abort of a checked build. -/
def I80F48.unchecked_sub (a b : I80F48) : Option I80F48 :=
  if fitsI128 (a.bits - b.bits) then some ⟨a.bits - b.bits⟩ else none

/-- Lossless conversion of an unsigned 64-bit integer into I80F48
(the From impl used for time_delta.into() and max_capacity.into()). -/
def I80F48.ofU64 (n : Int) : I80F48 := ⟨n * fxScale⟩

/-- Conversion I80F48 -> u64 (the to_num calls in accrue_interest): the value
rounded toward negative infinity; None when the result is not a u64, which
aborts the program. -/
def I80F48.to_num_u64 (a : I80F48) : Option Int :=
  if 0 ≤ Int.fdiv a.bits fxScale ∧ Int.fdiv a.bits fxScale < 2 ^ 64 then
    some (Int.fdiv a.bits fxScale)
  else none

/-- Modelled from the spec: SECONDS_PER_YEAR lives in the crate's constants
module, which is not part of the given sources.  The spec's one-year test
vectors (time_delta = 31,536,000 with 100 percent APR yielding unit interest)
fix its value to 31,536,000 seconds. -/
def SECONDS_PER_YEAR : I80F48 := ⟨31536000 * fxScale⟩

/-- Errors of the marginfi program used by the modelled operations
(the error enum itself lives outside the given sources; only these two
variants are reachable from the modelled code). -/
inductive MarginfiError where
  | MathError
  | BankDepositCapacityExceeded
deriving DecidableEq

deriving instance DecidableEq for Except

/-- Outcome of a computation that can abort the program (fatal), fail with
Option None (nores), or produce a value (res).  The flag on fatal records
whether the abort came from one of the explicit non-negativity assertions
(true) or from unchecked arithmetic overflowing (false). -/
inductive CRes (α : Type) where
  | fatal (assertFailed : Bool)
  | nores
  | res (v : α)
deriving DecidableEq

/-- Curve and fee parameters (struct InterestRateConfig).  The source stores
each field as WrappedI80F48; per the spec that wrapper is a lossless
bit-reinterpretation of I80F48, so the fields are modelled as I80F48
directly. -/
structure InterestRateConfig where
  optimal_utilization_rate : I80F48
  plateau_interest_rate : I80F48
  max_interest_rate : I80F48
  insurance_fee_fixed_apr : I80F48
  insurance_ir_fee : I80F48
  protocol_fixed_fee_apr : I80F48
  protocol_ir_fee : I80F48
deriving DecidableEq

/-- Bank configuration (struct BankConfig).  The weight and oracle fields are
never read or written by the modelled operations and are omitted;
max_capacity is the u64 field, modelled as an integer. -/
structure BankConfig where
  max_capacity : Int
  interest_rate_config : InterestRateConfig
deriving DecidableEq

/-- Per-asset pool state (struct Bank).  The pubkey identity and vault fields
are never read or written by the modelled operations and are omitted. -/
structure Bank where
  deposit_share_value : I80F48
  liability_share_value : I80F48
  config : BankConfig
  total_borrow_shares : I80F48
  total_deposit_shares : I80F48
  last_update : Int
deriving DecidableEq

/-- Clock sysvar: only the unix_timestamp field (an i64) is read. -/
structure Clock where
  unix_timestamp : Int
deriving DecidableEq

/-- Piecewise linear interest rate function
(InterestRateConfig::interest_rate_curve).  The three bare subtractions in the
else branch are unchecked fixed-point operations: overflowing them aborts the
program (fatal false) instead of returning None. -/
def InterestRateConfig.interest_rate_curve (c : InterestRateConfig) (ur : I80F48) :
    CRes I80F48 :=
  if ur.bits ≤ c.optimal_utilization_rate.bits then
    match ur.checked_div c.optimal_utilization_rate with
    | none => .nores
    | some q =>
      match q.checked_mul c.plateau_interest_rate with
      | none => .nores
      | some r => .res r
  else
    match I80F48.unchecked_sub ur c.optimal_utilization_rate with
    | none => .fatal false
    | some d =>
      match I80F48.unchecked_sub I80F48.one c.optimal_utilization_rate with
      | none => .fatal false
      | some w =>
        match d.checked_div w with
        | none => .nores
        | some q =>
          match I80F48.unchecked_sub c.max_interest_rate c.plateau_interest_rate with
          | none => .fatal false
          | some m =>
            match q.checked_mul m with
            | none => .nores
            | some p =>
              match p.checked_add c.plateau_interest_rate with
              | none => .nores
              | some r => .res r

/-- Fee rate for a given base rate (fn calc_fee_rate):
base_rate * rate_fees + fixed_fees, checked. -/
def calc_fee_rate (base_rate rate_fees fixed_fees : I80F48) : Option I80F48 :=
  match base_rate.checked_mul rate_fees with
  | none => none
  | some x => x.checked_add fixed_fees

/-- Rate computation (InterestRateConfig::calc_interest_rate): returns
(lending_rate, borrowing_rate, group_fees_apr, insurance_fees_apr).  The two
fee sums on the first lines use the bare + operator (fatal false on
overflow); the four trailing non-negativity assertions abort with fatal true
when violated. -/
def InterestRateConfig.calc_interest_rate (c : InterestRateConfig)
    (utilization_ratio : I80F48) : CRes (I80F48 × I80F48 × I80F48 × I80F48) :=
  match I80F48.unchecked_add c.protocol_ir_fee c.insurance_ir_fee with
  | none => .fatal false
  | some rate_fee =>
    match I80F48.unchecked_add c.protocol_fixed_fee_apr c.insurance_fee_fixed_apr with
    | none => .fatal false
    | some total_fixed_fee_apr =>
      match c.interest_rate_curve utilization_ratio with
      | .fatal b => .fatal b
      | .nores => .nores
      | .res base_rate =>
        match base_rate.checked_mul utilization_ratio with
        | none => .nores
        | some lending_rate =>
          match I80F48.one.checked_add rate_fee with
          | none => .nores
          | some one_plus_fee =>
            match base_rate.checked_mul one_plus_fee with
            | none => .nores
            | some br0 =>
              match br0.checked_add total_fixed_fee_apr with
              | none => .nores
              | some borrowing_rate =>
                match calc_fee_rate base_rate c.protocol_ir_fee c.protocol_fixed_fee_apr with
                | none => .nores
                | some group_fees_apr =>
                  match calc_fee_rate base_rate c.insurance_ir_fee c.insurance_fee_fixed_apr with
                  | none => .nores
                  | some insurance_fees_apr =>
                    if 0 ≤ lending_rate.bits ∧ 0 ≤ borrowing_rate.bits ∧
                        0 ≤ group_fees_apr.bits ∧ 0 ≤ insurance_fees_apr.bits then
                      .res (lending_rate, borrowing_rate, group_fees_apr, insurance_fees_apr)
                    else
                      .fatal true

/-- Share to deposit value conversion (Bank::get_deposit_amount):
shares * deposit_share_value, MathError on overflow. -/
def Bank.get_deposit_amount (b : Bank) (shares : I80F48) :
    Except MarginfiError I80F48 :=
  match shares.checked_mul b.deposit_share_value with
  | none => .error .MathError
  | some v => .ok v

/-- Share to liability value conversion (Bank::get_liability_amount):
shares * liability_share_value, MathError on overflow. -/
def Bank.get_liability_amount (b : Bank) (shares : I80F48) :
    Except MarginfiError I80F48 :=
  match shares.checked_mul b.liability_share_value with
  | none => .error .MathError
  | some v => .ok v

/-- Deposit share total mutation with capacity enforcement
(Bank::change_deposit_shares).  The source mutates self.total_deposit_shares
first and only then runs the capacity check, so the returned state carries the
incremented total even when the capacity error is signalled; the result pair
is (function result, state of the bank after the call). -/
def Bank.change_deposit_shares (b : Bank) (shares : I80F48) :
    Except MarginfiError Unit × Bank :=
  match b.total_deposit_shares.checked_add shares with
  | none => (.error .MathError, b)
  | some total =>
    let b' : Bank := { b with total_deposit_shares := total }
    if 0 < shares.bits then
      match b'.get_deposit_amount b'.total_deposit_shares with
      | .error e => (.error e, b')
      | .ok total_shares_value =>
        match b'.get_deposit_amount (I80F48.ofU64 b'.config.max_capacity) with
        | .error e => (.error e, b')
        | .ok max_deposit_capacity =>
          if total_shares_value.bits < max_deposit_capacity.bits then (.ok (), b')
          else (.error .BankDepositCapacityExceeded, b')
    else (.ok (), b')

/-- Bad-debt socialization (Bank::socialize_loss): reduces the deposit share
value to (total_deposit_shares * old_value - loss_amount) /
total_deposit_shares; the state is only written after the whole chain
succeeds. -/
def Bank.socialize_loss (b : Bank) (loss_amount : I80F48) :
    Except MarginfiError Unit × Bank :=
  match b.total_deposit_shares.checked_mul b.deposit_share_value with
  | none => (.error .MathError, b)
  | some p =>
    match p.checked_sub loss_amount with
    | none => (.error .MathError, b)
    | some q =>
      match q.checked_div b.total_deposit_shares with
      | none => (.error .MathError, b)
      | some new_share_value =>
        (.ok (), { b with deposit_share_value := new_share_value })

/-- New principal after simple interest over a period
(fn calc_accrued_interest_payment_per_period):
value * (1 + apr / SECONDS_PER_YEAR * time_delta), checked. -/
def calc_accrued_interest_payment_per_period (apr : I80F48) (time_delta : Int)
    (value : I80F48) : Option I80F48 :=
  match apr.checked_div SECONDS_PER_YEAR with
  | none => none
  | some ir_per_second =>
    match ir_per_second.checked_mul (I80F48.ofU64 time_delta) with
    | none => none
    | some x =>
      match I80F48.one.checked_add x with
      | none => none
      | some factor => value.checked_mul factor

/-- Interest payment over a period (fn calc_interest_payment_for_period):
value * (apr / SECONDS_PER_YEAR) * time_delta, checked. -/
def calc_interest_payment_for_period (apr : I80F48) (time_delta : Int)
    (value : I80F48) : Option I80F48 :=
  match apr.checked_div SECONDS_PER_YEAR with
  | none => none
  | some ir_per_second =>
    match value.checked_mul ir_per_second with
    | none => none
    | some x => x.checked_mul (I80F48.ofU64 time_delta)

/-- Accrual state change computation
(fn calc_interest_rate_accrual_state_changes): utilization, the four rates,
and the four outputs (new deposit share value, new liability share value,
group fees, insurance fees). -/
def calc_interest_rate_accrual_state_changes (time_delta : Int)
    (total_deposits total_liabilities : I80F48)
    (interest_rate_config : InterestRateConfig)
    (deposit_share_value liability_share_value : I80F48) :
    CRes (I80F48 × I80F48 × I80F48 × I80F48) :=
  match total_liabilities.checked_div total_deposits with
  | none => .nores
  | some utilization_rate =>
    match interest_rate_config.calc_interest_rate utilization_rate with
    | .fatal b => .fatal b
    | .nores => .nores
    | .res (lending_apr, borrowing_apr, group_fee_apr, insurance_fee_apr) =>
      match calc_accrued_interest_payment_per_period lending_apr time_delta deposit_share_value,
          calc_accrued_interest_payment_per_period borrowing_apr time_delta liability_share_value,
          calc_interest_payment_for_period group_fee_apr time_delta total_liabilities,
          calc_interest_payment_for_period insurance_fee_apr time_delta total_liabilities with
      | some a, some b, some c, some d => .res (a, b, c, d)
      | _, _, _, _ => .nores

/-- Checked i64 subtraction: None models the abort of an overflowing i64
subtraction in a build with overflow checks. -/
def i64_checked_sub (a b : Int) : Option Int :=
  if -(2 ^ 63) ≤ a - b ∧ a - b < 2 ^ 63 then some (a - b) else none

/-- Conversion i64 -> u64 (the try_into in accrue_interest): fails exactly on
negative inputs (every i64 is below 2^64). -/
def u64_try_from (d : Int) : Option Int :=
  if 0 ≤ d ∧ d < 2 ^ 64 then some d else none

/-- Time delta computation at the top of accrue_interest:
(clock.unix_timestamp - self.last_update).try_into().unwrap().  None means the
program aborts (either the subtraction overflowed or the difference was
negative and the unwrap fired). -/
def accrual_time_delta (now last_update : Int) : Option Int :=
  match i64_checked_sub now last_update with
  | none => none
  | some d => u64_try_from d

/-- Outcome of Bank::accrue_interest: a program abort (fatal), an error
return, or success with the two fee amounts in integer token units. -/
inductive AccrueOut where
  | fatal
  | err (e : MarginfiError)
  | ok (group_fees insurance_fees : Int)
deriving DecidableEq

/-- Interest accrual state transition (Bank::accrue_interest).  The result
pair is (outcome, state of the bank after the call): the three fields are
committed only after the whole state-change computation has succeeded, but
before the two to_num conversions of the fee amounts run. -/
def Bank.accrue_interest (b : Bank) (clock : Clock) : AccrueOut × Bank :=
  match accrual_time_delta clock.unix_timestamp b.last_update with
  | none => (.fatal, b)
  | some time_delta =>
    match b.get_deposit_amount b.total_deposit_shares with
    | .error e => (.err e, b)
    | .ok total_deposits =>
      match b.get_liability_amount b.total_borrow_shares with
      | .error e => (.err e, b)
      | .ok total_liabilities =>
        match calc_interest_rate_accrual_state_changes time_delta total_deposits
            total_liabilities b.config.interest_rate_config
            b.deposit_share_value b.liability_share_value with
        | .fatal _ => (.fatal, b)
        | .nores => (.err .MathError, b)
        | .res (dsv, lsv, group_fees_collected, insurance_fees_collected) =>
          let b' : Bank := { b with deposit_share_value := dsv,
                                    liability_share_value := lsv,
                                    last_update := clock.unix_timestamp }
          match group_fees_collected.to_num_u64 with
          | none => (.fatal, b')
          | some g =>
            match insurance_fees_collected.to_num_u64 with
            | none => (.fatal, b')
            | some i => (.ok g i, b')

/-- Interest rate configuration with every parameter zero, used by the
concrete instances below. -/
def ircZero : InterestRateConfig := ⟨⟨0⟩, ⟨0⟩, ⟨0⟩, ⟨0⟩, ⟨0⟩, ⟨0⟩, ⟨0⟩⟩

/-- Concrete bank with unit share values, no outstanding shares and a deposit
capacity of 10 tokens. -/
def bankCap : Bank :=
  { deposit_share_value := I80F48.one
    liability_share_value := I80F48.one
    config := { max_capacity := 10, interest_rate_config := ircZero }
    total_borrow_shares := ⟨0⟩
    total_deposit_shares := ⟨0⟩
    last_update := 0 }

/-- Concrete bank with unit share values and no outstanding shares (an empty
pool). -/
def bankEmpty : Bank :=
  { deposit_share_value := I80F48.one
    liability_share_value := I80F48.one
    config := { max_capacity := 0, interest_rate_config := ircZero }
    total_borrow_shares := ⟨0⟩
    total_deposit_shares := ⟨0⟩
    last_update := 0 }

/-- Concrete bank with unit share values and ten deposit shares outstanding. -/
def bankSoc : Bank :=
  { deposit_share_value := I80F48.one
    liability_share_value := I80F48.one
    config := { max_capacity := 0, interest_rate_config := ircZero }
    total_borrow_shares := ⟨0⟩
    total_deposit_shares := ⟨10 * fxScale⟩
    last_update := 0 }

/-- Rate configuration whose curve reaches a base rate of exactly 1 at full
utilization: optimal utilization 0.5, plateau 0.5, maximum 1, no fees. -/
def ircFull : InterestRateConfig :=
  ⟨⟨2 ^ 47⟩, ⟨2 ^ 47⟩, ⟨2 ^ 48⟩, ⟨0⟩, ⟨0⟩, ⟨0⟩, ⟨0⟩⟩

/-- Concrete bank at 100 percent utilization: 100 deposit shares and
100 borrow shares at unit share values, under the ircFull curve. -/
def bankFull : Bank :=
  { deposit_share_value := I80F48.one
    liability_share_value := I80F48.one
    config := { max_capacity := 0, interest_rate_config := ircFull }
    total_borrow_shares := ⟨100 * fxScale⟩
    total_deposit_shares := ⟨100 * fxScale⟩
    last_update := 0 }

/-- Clock reading time zero. -/
def clockZero : Clock := ⟨0⟩

/-- Clock reading one year (31,536,000 seconds) after time zero. -/
def clockYear1 : Clock := ⟨31536000⟩

/-- Clock reading two years (63,072,000 seconds) after time zero. -/
def clockYear2 : Clock := ⟨63072000⟩

/-- Rate configuration with optimal utilization 1, plateau rate 2, maximum
rate 2 and no fees; at full utilization its curve yields base rate 2. -/
def ircKnee : InterestRateConfig :=
  ⟨⟨fxScale⟩, ⟨2 * fxScale⟩, ⟨2 * fxScale⟩, ⟨0⟩, ⟨0⟩, ⟨0⟩, ⟨0⟩⟩

/-- Restatement of the piecewise interest rate curve following the
specification's words, over plain integer arithmetic: below the knee the base
rate is utilization / optimal * plateau; above it,
(utilization - optimal) / (1 - optimal) * (max - plateau) + plateau; there is
no result exactly on division by zero (optimal_utilization_rate = 0 in the
first branch, = 1 in the second) or on arithmetic overflow, where an overflow
of one of the unchecked subtractions aborts instead. -/
def interest_rate_curve_spec (cfg : InterestRateConfig) (ur : I80F48) : CRes I80F48 :=
  if ur.bits ≤ cfg.optimal_utilization_rate.bits then
    if cfg.optimal_utilization_rate.bits = 0 then .nores
    else if ¬ fitsI128 (Int.fdiv (ur.bits * fxScale) cfg.optimal_utilization_rate.bits) then
      .nores
    else if ¬ fitsI128 (Int.fdiv (Int.fdiv (ur.bits * fxScale)
        cfg.optimal_utilization_rate.bits * cfg.plateau_interest_rate.bits) fxScale) then
      .nores
    else
      .res ⟨Int.fdiv (Int.fdiv (ur.bits * fxScale)
        cfg.optimal_utilization_rate.bits * cfg.plateau_interest_rate.bits) fxScale⟩
  else
    if ¬ fitsI128 (ur.bits - cfg.optimal_utilization_rate.bits) then .fatal false
    else if ¬ fitsI128 (fxScale - cfg.optimal_utilization_rate.bits) then .fatal false
    else if cfg.optimal_utilization_rate.bits = fxScale then .nores
    else if ¬ fitsI128 (Int.fdiv ((ur.bits - cfg.optimal_utilization_rate.bits) * fxScale)
        (fxScale - cfg.optimal_utilization_rate.bits)) then .nores
    else if ¬ fitsI128 (cfg.max_interest_rate.bits - cfg.plateau_interest_rate.bits) then
      .fatal false
    else if ¬ fitsI128 (Int.fdiv (Int.fdiv ((ur.bits - cfg.optimal_utilization_rate.bits) *
        fxScale) (fxScale - cfg.optimal_utilization_rate.bits) *
        (cfg.max_interest_rate.bits - cfg.plateau_interest_rate.bits)) fxScale) then
      .nores
    else if ¬ fitsI128 (Int.fdiv (Int.fdiv ((ur.bits - cfg.optimal_utilization_rate.bits) *
        fxScale) (fxScale - cfg.optimal_utilization_rate.bits) *
        (cfg.max_interest_rate.bits - cfg.plateau_interest_rate.bits)) fxScale +
        cfg.plateau_interest_rate.bits) then
      .nores
    else
      .res ⟨Int.fdiv (Int.fdiv ((ur.bits - cfg.optimal_utilization_rate.bits) *
        fxScale) (fxScale - cfg.optimal_utilization_rate.bits) *
        (cfg.max_interest_rate.bits - cfg.plateau_interest_rate.bits)) fxScale +
        cfg.plateau_interest_rate.bits⟩

/-! Helper lemmas shared by the claim theorems. -/

theorem Bank.get_deposit_amount_eq_ok {b : Bank} {s v : I80F48} :
    b.get_deposit_amount s = .ok v ↔ s.checked_mul b.deposit_share_value = some v := by
  unfold Bank.get_deposit_amount
  constructor
  · intro h
    split at h
    · exact absurd h (by simp)
    · rename_i v' heq
      cases h
      exact heq
  · intro h
    rw [h]

theorem Bank.get_deposit_amount_eq_error {b : Bank} {s : I80F48} {e : MarginfiError} :
    b.get_deposit_amount s = .error e ↔
      s.checked_mul b.deposit_share_value = none ∧ e = .MathError := by
  unfold Bank.get_deposit_amount
  constructor
  · intro h
    split at h
    · rename_i heq
      cases h
      exact ⟨heq, rfl⟩
    · exact absurd h (by simp)
  · rintro ⟨h, rfl⟩
    rw [h]

theorem Bank.get_liability_amount_eq_ok {b : Bank} {s v : I80F48} :
    b.get_liability_amount s = .ok v ↔ s.checked_mul b.liability_share_value = some v := by
  unfold Bank.get_liability_amount
  constructor
  · intro h
    split at h
    · exact absurd h (by simp)
    · rename_i v' heq
      cases h
      exact heq
  · intro h
    rw [h]

theorem Bank.get_liability_amount_eq_error {b : Bank} {s : I80F48} {e : MarginfiError} :
    b.get_liability_amount s = .error e ↔
      s.checked_mul b.liability_share_value = none ∧ e = .MathError := by
  unfold Bank.get_liability_amount
  constructor
  · intro h
    split at h
    · rename_i heq
      cases h
      exact ⟨heq, rfl⟩
    · exact absurd h (by simp)
  · rintro ⟨h, rfl⟩
    rw [h]

/-- C1 counterexample: at a concrete bank with capacity 10 and a deposit of 20
shares, change_deposit_shares signals BankDepositCapacityExceeded and the
bank's total_deposit_shares is NOT the pre-call value: the share mutation has
already happened when the failure is returned, refuting the claim that the
pre-failure state is unchanged. -/
theorem c1_counterexample :
    (bankCap.change_deposit_shares ⟨20 * fxScale⟩).1 =
        .error .BankDepositCapacityExceeded ∧
      ¬((bankCap.change_deposit_shares ⟨20 * fxScale⟩).2.total_deposit_shares =
        bankCap.total_deposit_shares) := by
  constructor
  · decide
  · decide

/-- C1 (amended): when change_deposit_shares fails with
BankDepositCapacityExceeded, the bank state after the call has
total_deposit_shares already incremented by the delta, and every other field
unchanged; the caller must discard the mutated state for the failure to leave
no trace. -/
theorem c1_capacity_failure_state (b : Bank) (delta s : I80F48)
    (hadd : b.total_deposit_shares.checked_add delta = some s)
    (_ : (b.change_deposit_shares delta).1 = .error .BankDepositCapacityExceeded) :
    (b.change_deposit_shares delta).2 = { b with total_deposit_shares := s } := by
  unfold Bank.change_deposit_shares
  rw [hadd]
  simp only
  split
  · split
    · rfl
    · split
      · rfl
      · split
        · rfl
        · rfl
  · rfl

/-- C1 witness: the amended theorem applied at the concrete capacity
violation. -/
theorem c1_witness :
    bankCap.total_deposit_shares.checked_add ⟨20 * fxScale⟩ = some ⟨20 * fxScale⟩ ∧
      (bankCap.change_deposit_shares ⟨20 * fxScale⟩).1 =
        .error .BankDepositCapacityExceeded ∧
      (bankCap.change_deposit_shares ⟨20 * fxScale⟩).2 =
        { bankCap with total_deposit_shares := ⟨20 * fxScale⟩ } :=
  ⟨by decide, by decide,
    c1_capacity_failure_state bankCap ⟨20 * fxScale⟩ ⟨20 * fxScale⟩ (by decide) (by decide)⟩

/-- C5: socialize_loss with nonzero total deposit shares and no overflow sets
deposit_share_value to (total_deposit_shares * old_value - loss) /
total_deposit_shares and changes nothing else; it returns MathError (with the
bank untouched) when any step of that chain fails, and in particular always
fails when total_deposit_shares is zero. -/
theorem c5_socialize_loss_spec (b : Bank) (loss : I80F48) :
    (∀ p q nv,
        b.total_deposit_shares.checked_mul b.deposit_share_value = some p →
        p.checked_sub loss = some q →
        q.checked_div b.total_deposit_shares = some nv →
        b.socialize_loss loss = (.ok (), { b with deposit_share_value := nv })) ∧
      (b.total_deposit_shares.checked_mul b.deposit_share_value = none →
        b.socialize_loss loss = (.error .MathError, b)) ∧
      (∀ p, b.total_deposit_shares.checked_mul b.deposit_share_value = some p →
        p.checked_sub loss = none →
        b.socialize_loss loss = (.error .MathError, b)) ∧
      (∀ p q, b.total_deposit_shares.checked_mul b.deposit_share_value = some p →
        p.checked_sub loss = some q →
        q.checked_div b.total_deposit_shares = none →
        b.socialize_loss loss = (.error .MathError, b)) ∧
      (b.total_deposit_shares = ⟨0⟩ →
        (b.socialize_loss loss).1 = .error .MathError) := by
  refine ⟨?_, ?_, ?_, ?_, ?_⟩
  · intro p q nv hp hq hnv
    unfold Bank.socialize_loss
    rw [hp]; simp only; rw [hq]; simp only; rw [hnv]
  · intro hp
    unfold Bank.socialize_loss
    rw [hp]
  · intro p hp hq
    unfold Bank.socialize_loss
    rw [hp]; simp only; rw [hq]
  · intro p q hp hq hnv
    unfold Bank.socialize_loss
    rw [hp]; simp only; rw [hq]; simp only; rw [hnv]
  · intro h0
    unfold Bank.socialize_loss
    rw [h0]
    split
    · rfl
    · rename_i p hp
      split
      · rfl
      · rename_i q hq
        have hdiv : q.checked_div (⟨0⟩ : I80F48) = none := by
          unfold I80F48.checked_div
          simp
        rw [hdiv]

/-- C5 witness: socializing a loss of 5 tokens over 10 unit-valued shares
halves the share value and touches nothing else. -/
theorem c5_witness :
    bankSoc.total_deposit_shares.checked_mul bankSoc.deposit_share_value =
        some ⟨10 * fxScale⟩ ∧
      I80F48.checked_sub ⟨10 * fxScale⟩ ⟨5 * fxScale⟩ = some ⟨5 * fxScale⟩ ∧
      I80F48.checked_div ⟨5 * fxScale⟩ bankSoc.total_deposit_shares = some ⟨2 ^ 47⟩ ∧
      bankSoc.socialize_loss ⟨5 * fxScale⟩ =
        (.ok (), { bankSoc with deposit_share_value := ⟨2 ^ 47⟩ }) :=
  ⟨by decide, by decide, by decide,
    (c5_socialize_loss_spec bankSoc ⟨5 * fxScale⟩).1 ⟨10 * fxScale⟩ ⟨5 * fxScale⟩ ⟨2 ^ 47⟩
      (by decide) (by decide) (by decide)⟩

/-- C9: for a positive delta (and the checked share addition and the two
deposit-amount conversions succeeding), change_deposit_shares signals
BankDepositCapacityExceeded exactly when the value of the updated total
deposit shares is not strictly below the value of max_capacity shares-worth;
for delta at most zero no capacity check runs and the call succeeds whenever
the share addition does not overflow. -/
theorem c9_capacity_condition (b : Bank) (delta : I80F48) :
    (0 < delta.bits →
      ∀ s tv cv,
        b.total_deposit_shares.checked_add delta = some s →
        s.checked_mul b.deposit_share_value = some tv →
        (I80F48.ofU64 b.config.max_capacity).checked_mul b.deposit_share_value = some cv →
        ((b.change_deposit_shares delta).1 = .error .BankDepositCapacityExceeded ↔
          ¬(tv.bits < cv.bits))) ∧
      (delta.bits ≤ 0 →
        ∀ s, b.total_deposit_shares.checked_add delta = some s →
          (b.change_deposit_shares delta).1 = .ok ()) := by
  constructor
  · intro hpos s tv cv hadd htv hcv
    unfold Bank.change_deposit_shares Bank.get_deposit_amount
    rw [hadd]
    simp only [if_pos hpos]
    rw [htv]
    simp only
    rw [hcv]
    simp only
    by_cases hlt : tv.bits < cv.bits
    · rw [if_pos hlt]
      simp [hlt]
    · rw [if_neg hlt]
      simp [hlt]
  · intro hnonpos s hadd
    unfold Bank.change_deposit_shares
    rw [hadd]
    simp only [if_neg (by omega : ¬(0 < delta.bits))]

/-- C9 witness: the capacity condition at the concrete violating deposit, and
the unchecked path for a withdrawal. -/
theorem c9_witness :
    (0 : Int) < (20 * fxScale) ∧
      ((bankCap.change_deposit_shares ⟨20 * fxScale⟩).1 =
          .error .BankDepositCapacityExceeded ↔
        ¬((20 * fxScale : Int) < 10 * fxScale)) ∧
      (bankCap.change_deposit_shares ⟨-fxScale⟩).1 = .ok () :=
  ⟨by decide,
    (c9_capacity_condition bankCap ⟨20 * fxScale⟩).1 (by decide)
      ⟨20 * fxScale⟩ ⟨20 * fxScale⟩ ⟨10 * fxScale⟩ (by decide) (by decide) (by decide),
    (c9_capacity_condition bankCap ⟨-fxScale⟩).2 (by decide) ⟨-fxScale⟩ (by decide)⟩

/-- C10: with the clock and last_update in i64 range, a regressed clock makes
accrue_interest abort (the negative delta fails the u64 conversion and the
unwrap fires, or the subtraction itself overflows), while for a
non-regressed clock the i64-to-u64 conversion of a successfully computed
delta never fails. -/
theorem c10_time_delta_conversion (b : Bank) (c : Clock)
    (hc1 : -(2 ^ 63) ≤ c.unix_timestamp) (hc2 : c.unix_timestamp < 2 ^ 63)
    (hb1 : -(2 ^ 63) ≤ b.last_update) (hb2 : b.last_update < 2 ^ 63) :
    (c.unix_timestamp < b.last_update → (b.accrue_interest c).1 = .fatal) ∧
      (b.last_update ≤ c.unix_timestamp →
        ∀ d, i64_checked_sub c.unix_timestamp b.last_update = some d →
          u64_try_from d = some d) := by
  constructor
  · intro hlt
    have hdelta : accrual_time_delta c.unix_timestamp b.last_update = none := by
      unfold accrual_time_delta i64_checked_sub u64_try_from
      split
      · rfl
      · rename_i d heq
        split at heq
        · rename_i h
          cases heq
          rw [if_neg (by omega)]
        · exact absurd heq (by simp)
    unfold Bank.accrue_interest
    rw [hdelta]
  · intro hle d hd
    unfold i64_checked_sub at hd
    split at hd
    · rename_i h
      cases hd
      unfold u64_try_from
      rw [if_pos (by omega)]
    · exact absurd hd (by simp)

/-- C10 witness: a clock five seconds behind last_update aborts the accrual,
and a successfully computed non-negative delta converts to u64. -/
theorem c10_witness :
    (bankEmpty.accrue_interest ⟨-5⟩).1 = .fatal ∧ u64_try_from 7 = some 7 :=
  ⟨(c10_time_delta_conversion bankEmpty ⟨-5⟩ (by decide) (by decide) (by decide)
      (by decide)).1 (by decide),
    (c10_time_delta_conversion bankEmpty ⟨7⟩ (by decide) (by decide) (by decide)
      (by decide)).2 (by decide) 7 (by decide)⟩

/-- C4: whenever accrue_interest returns an error, the error is MathError and
the bank is completely unchanged (every output is computed before any field is
committed); and in particular, when the time delta is computable and the total
deposit value is zero, the utilization division fails and the call returns
MathError with the bank unchanged. -/
theorem c4_error_atomicity (b : Bank) (c : Clock) :
    (∀ e, (b.accrue_interest c).1 = .err e →
        e = .MathError ∧ (b.accrue_interest c).2 = b) ∧
      (∀ d, accrual_time_delta c.unix_timestamp b.last_update = some d →
        b.total_deposit_shares.checked_mul b.deposit_share_value = some ⟨0⟩ →
        (b.accrue_interest c).1 = .err .MathError ∧ (b.accrue_interest c).2 = b) := by
  constructor
  · intro e h
    unfold Bank.accrue_interest at h ⊢
    repeat' split at h
    all_goals
      simp_all [Bank.get_deposit_amount_eq_error, Bank.get_liability_amount_eq_error]
  · intro d hd hzero
    have htot : b.get_deposit_amount b.total_deposit_shares = .ok ⟨0⟩ :=
      Bank.get_deposit_amount_eq_ok.mpr hzero
    unfold Bank.accrue_interest
    rw [hd]
    simp only
    rw [htot]
    simp only
    split
    · rename_i e heq
      have he := (Bank.get_liability_amount_eq_error.mp heq).2
      subst he
      exact ⟨rfl, rfl⟩
    · rename_i totL heq
      have hutil : totL.checked_div (⟨0⟩ : I80F48) = none := by
        unfold I80F48.checked_div
        simp
      unfold calc_interest_rate_accrual_state_changes
      rw [hutil]
      exact ⟨rfl, rfl⟩

/-- C4 witness: accruing on an empty pool five seconds after creation fails
with MathError and leaves the bank untouched. -/
theorem c4_witness :
    accrual_time_delta (5 : Int) bankEmpty.last_update = some 5 ∧
      bankEmpty.total_deposit_shares.checked_mul bankEmpty.deposit_share_value =
        some ⟨0⟩ ∧
      (bankEmpty.accrue_interest ⟨5⟩).1 = .err .MathError ∧
      (bankEmpty.accrue_interest ⟨5⟩).2 = bankEmpty :=
  ⟨by decide, by decide,
    ((c4_error_atomicity bankEmpty ⟨5⟩).2 5 (by decide) (by decide)).1,
    ((c4_error_atomicity bankEmpty ⟨5⟩).2 5 (by decide) (by decide)).2⟩

theorem I80F48.checked_add_eq_some {a b c : I80F48} :
    a.checked_add b = some c ↔ fitsI128 (a.bits + b.bits) ∧ c = ⟨a.bits + b.bits⟩ := by
  unfold I80F48.checked_add
  split <;> rename_i h <;> simp [h, eq_comm]

theorem I80F48.checked_sub_eq_some {a b c : I80F48} :
    a.checked_sub b = some c ↔ fitsI128 (a.bits - b.bits) ∧ c = ⟨a.bits - b.bits⟩ := by
  unfold I80F48.checked_sub
  split <;> rename_i h <;> simp [h, eq_comm]

theorem I80F48.checked_mul_eq_some {a b c : I80F48} :
    a.checked_mul b = some c ↔
      fitsI128 (Int.fdiv (a.bits * b.bits) fxScale) ∧
        c = ⟨Int.fdiv (a.bits * b.bits) fxScale⟩ := by
  unfold I80F48.checked_mul
  split <;> rename_i h <;> simp [h, eq_comm]

theorem I80F48.checked_div_eq_some {a b c : I80F48} :
    a.checked_div b = some c ↔
      b.bits ≠ 0 ∧ fitsI128 (Int.fdiv (a.bits * fxScale) b.bits) ∧
        c = ⟨Int.fdiv (a.bits * fxScale) b.bits⟩ := by
  unfold I80F48.checked_div
  split
  · rename_i h
    simp [h]
  · rename_i h
    split <;> rename_i h' <;> simp [h, h', eq_comm]

theorem I80F48.unchecked_add_eq_some {a b c : I80F48} :
    I80F48.unchecked_add a b = some c ↔ fitsI128 (a.bits + b.bits) ∧ c = ⟨a.bits + b.bits⟩ := by
  unfold I80F48.unchecked_add
  split <;> rename_i h <;> simp [h, eq_comm]

theorem I80F48.unchecked_sub_eq_some {a b c : I80F48} :
    I80F48.unchecked_sub a b = some c ↔ fitsI128 (a.bits - b.bits) ∧ c = ⟨a.bits - b.bits⟩ := by
  unfold I80F48.unchecked_sub
  split <;> rename_i h <;> simp [h, eq_comm]

theorem fxScale_pos : 0 < fxScale := by
  norm_num [fxScale]

theorem fxScale_nonneg : 0 ≤ fxScale := le_of_lt fxScale_pos

/-- Base rates coming out of the curve are non-negative whenever the
configuration parameters satisfy the documented preconditions. -/
theorem interest_rate_curve_res_nonneg (cfg : InterestRateConfig) (u r : I80F48)
    (hopt0 : 0 ≤ cfg.optimal_utilization_rate.bits)
    (hopt1 : cfg.optimal_utilization_rate.bits ≤ fxScale)
    (hpl : 0 ≤ cfg.plateau_interest_rate.bits)
    (hmax : cfg.plateau_interest_rate.bits ≤ cfg.max_interest_rate.bits)
    (hu : 0 ≤ u.bits)
    (h : cfg.interest_rate_curve u = .res r) : 0 ≤ r.bits := by
  unfold InterestRateConfig.interest_rate_curve at h
  split at h
  · rename_i hle
    split at h
    · simp at h
    · rename_i q hq
      split at h
      · simp at h
      · rename_i r' hr
        have hq' := I80F48.checked_div_eq_some.mp hq
        have hr' := I80F48.checked_mul_eq_some.mp hr
        have : r' = r := by simpa using h
        subst this
        obtain ⟨_, _, rfl⟩ := hq'
        obtain ⟨_, rfl⟩ := hr'
        simp only
        exact Int.fdiv_nonneg
          (mul_nonneg (Int.fdiv_nonneg (mul_nonneg hu fxScale_nonneg) hopt0) hpl)
          fxScale_nonneg
  · rename_i hgt
    split at h
    · simp at h
    · rename_i d hd
      split at h
      · simp at h
      · rename_i w hw
        split at h
        · simp at h
        · rename_i q hq
          split at h
          · simp at h
          · rename_i m hm
            split at h
            · simp at h
            · rename_i p hp
              split at h
              · simp at h
              · rename_i r' hr
                have hrr : r' = r := by simpa using h
                subst hrr
                obtain ⟨_, rfl⟩ := I80F48.unchecked_sub_eq_some.mp hd
                obtain ⟨_, rfl⟩ := I80F48.unchecked_sub_eq_some.mp hw
                obtain ⟨_, _, rfl⟩ := I80F48.checked_div_eq_some.mp hq
                obtain ⟨_, rfl⟩ := I80F48.unchecked_sub_eq_some.mp hm
                obtain ⟨_, rfl⟩ := I80F48.checked_mul_eq_some.mp hp
                obtain ⟨_, rfl⟩ := I80F48.checked_add_eq_some.mp hr
                simp only [I80F48.one]
                refine add_nonneg ?_ hpl
                refine Int.fdiv_nonneg (mul_nonneg ?_ (by omega)) fxScale_nonneg
                refine Int.fdiv_nonneg (mul_nonneg (by omega) fxScale_nonneg) ?_
                exact sub_nonneg.mpr hopt1

/-- The curve never fails one of the caller's assertions itself: its abort
outcomes are always tagged as arithmetic aborts. -/
theorem interest_rate_curve_ne_fatal_true (cfg : InterestRateConfig) (u : I80F48) :
    cfg.interest_rate_curve u ≠ .fatal true := by
  intro h
  unfold InterestRateConfig.interest_rate_curve at h
  repeat' split at h
  all_goals simp_all

theorem calc_fee_rate_eq_some {a rf ff d : I80F48} :
    calc_fee_rate a rf ff = some d ↔
      ∃ x, a.checked_mul rf = some x ∧ x.checked_add ff = some d := by
  unfold calc_fee_rate
  split
  · rename_i h
    simp [h]
  · rename_i x h
    simp [h]

/-- Whatever calc_interest_rate returns has passed the four non-negativity
assertions. -/
theorem calc_interest_rate_res_nonneg (cfg : InterestRateConfig) (u l br g i : I80F48)
    (h : cfg.calc_interest_rate u = .res (l, br, g, i)) :
    0 ≤ l.bits ∧ 0 ≤ br.bits ∧ 0 ≤ g.bits ∧ 0 ≤ i.bits := by
  unfold InterestRateConfig.calc_interest_rate at h
  repeat' split at h
  all_goals simp_all

/-- C7: whenever calc_interest_rate returns a result, the four rates are
exactly the checked-arithmetic evaluations of the specified formulas over the
base rate produced by the curve: lending = base * utilization, borrowing =
base * (1 + protocol_ir_fee + insurance_ir_fee) + both fixed fee APRs,
group fee = base * protocol_ir_fee + protocol_fixed_fee_apr, insurance fee =
base * insurance_ir_fee + insurance_fee_fixed_apr; the converse direction of
the same equations shows the call yields no result as soon as any step of the
chain overflows. -/
theorem c7_calc_interest_rate_formulas (cfg : InterestRateConfig) (u l br g i : I80F48)
    (h : cfg.calc_interest_rate u = .res (l, br, g, i)) :
    ∃ base_rate rate_fee total_fixed_fee_apr,
      cfg.interest_rate_curve u = .res base_rate ∧
      I80F48.unchecked_add cfg.protocol_ir_fee cfg.insurance_ir_fee = some rate_fee ∧
      I80F48.unchecked_add cfg.protocol_fixed_fee_apr cfg.insurance_fee_fixed_apr =
        some total_fixed_fee_apr ∧
      base_rate.checked_mul u = some l ∧
      (∃ x y, I80F48.one.checked_add rate_fee = some x ∧
        base_rate.checked_mul x = some y ∧ y.checked_add total_fixed_fee_apr = some br) ∧
      calc_fee_rate base_rate cfg.protocol_ir_fee cfg.protocol_fixed_fee_apr = some g ∧
      calc_fee_rate base_rate cfg.insurance_ir_fee cfg.insurance_fee_fixed_apr = some i := by
  unfold InterestRateConfig.calc_interest_rate at h
  split at h
  · simp at h
  · rename_i rate_fee h1
    split at h
    · simp at h
    · rename_i tf h2
      split at h
      · simp at h
      · simp at h
      · rename_i base h3
        split at h
        · simp at h
        · rename_i lending h4
          split at h
          · simp at h
          · rename_i one_plus h5
            split at h
            · simp at h
            · rename_i br0 h6
              split at h
              · simp at h
              · rename_i borrowing h7
                split at h
                · simp at h
                · rename_i gf h8
                  split at h
                  · simp at h
                  · rename_i insf h9
                    split at h
                    · simp only [CRes.res.injEq, Prod.mk.injEq] at h
                      obtain ⟨rfl, rfl, rfl, rfl⟩ := h
                      exact ⟨base, rate_fee, tf, h3, h1, h2, h4,
                        ⟨one_plus, br0, h5, h6, h7⟩, h8, h9⟩
                    · simp at h

/-- C7 witness: the formulas at the concrete knee configuration under full
utilization. -/
theorem c7_witness :
    ircKnee.calc_interest_rate I80F48.one =
        .res (⟨2 * fxScale⟩, ⟨2 * fxScale⟩, ⟨0⟩, ⟨0⟩) ∧
      ∃ base_rate rate_fee total_fixed_fee_apr,
        ircKnee.interest_rate_curve I80F48.one = .res base_rate ∧
        I80F48.unchecked_add ircKnee.protocol_ir_fee ircKnee.insurance_ir_fee =
          some rate_fee ∧
        I80F48.unchecked_add ircKnee.protocol_fixed_fee_apr ircKnee.insurance_fee_fixed_apr =
          some total_fixed_fee_apr ∧
        base_rate.checked_mul I80F48.one = some ⟨2 * fxScale⟩ ∧
        (∃ x y, I80F48.one.checked_add rate_fee = some x ∧
          base_rate.checked_mul x = some y ∧
          y.checked_add total_fixed_fee_apr = some ⟨2 * fxScale⟩) ∧
        calc_fee_rate base_rate ircKnee.protocol_ir_fee ircKnee.protocol_fixed_fee_apr =
          some ⟨0⟩ ∧
        calc_fee_rate base_rate ircKnee.insurance_ir_fee ircKnee.insurance_fee_fixed_apr =
          some ⟨0⟩ :=
  ⟨by decide,
    c7_calc_interest_rate_formulas ircKnee I80F48.one
      ⟨2 * fxScale⟩ ⟨2 * fxScale⟩ ⟨0⟩ ⟨0⟩ (by decide)⟩

/-- C8: under the documented configuration preconditions (optimal utilization
in the unit interval, plateau rate non-negative, maximum rate at least the
plateau rate, all four fee parameters non-negative) and non-negative
utilization, calc_interest_rate never trips one of its four non-negativity
assertions, and every tuple it returns is componentwise non-negative. -/
theorem c8_rates_nonneg (cfg : InterestRateConfig) (u : I80F48)
    (hopt0 : 0 ≤ cfg.optimal_utilization_rate.bits)
    (hopt1 : cfg.optimal_utilization_rate.bits ≤ fxScale)
    (hpl : 0 ≤ cfg.plateau_interest_rate.bits)
    (hmax : cfg.plateau_interest_rate.bits ≤ cfg.max_interest_rate.bits)
    (hiff : 0 ≤ cfg.insurance_fee_fixed_apr.bits)
    (hif : 0 ≤ cfg.insurance_ir_fee.bits)
    (hpff : 0 ≤ cfg.protocol_fixed_fee_apr.bits)
    (hpf : 0 ≤ cfg.protocol_ir_fee.bits)
    (hu : 0 ≤ u.bits) :
    cfg.calc_interest_rate u ≠ .fatal true ∧
      ∀ l br g i, cfg.calc_interest_rate u = .res (l, br, g, i) →
        0 ≤ l.bits ∧ 0 ≤ br.bits ∧ 0 ≤ g.bits ∧ 0 ≤ i.bits := by
  refine ⟨?_, fun l br g i h => calc_interest_rate_res_nonneg cfg u l br g i h⟩
  intro hbad
  unfold InterestRateConfig.calc_interest_rate at hbad
  split at hbad
  · simp at hbad
  · rename_i rate_fee h1
    split at hbad
    · simp at hbad
    · rename_i tf h2
      split at hbad
      · rename_i b3 h3
        have hb : b3 = true := by simpa using hbad
        subst hb
        exact interest_rate_curve_ne_fatal_true cfg u h3
      · simp at hbad
      · rename_i base h3
        have hbase : 0 ≤ base.bits :=
          interest_rate_curve_res_nonneg cfg u base hopt0 hopt1 hpl hmax hu h3
        split at hbad
        · simp at hbad
        · rename_i lending h4
          split at hbad
          · simp at hbad
          · rename_i one_plus h5
            split at hbad
            · simp at hbad
            · rename_i br0 h6
              split at hbad
              · simp at hbad
              · rename_i borrowing h7
                split at hbad
                · simp at hbad
                · rename_i gf h8
                  split at hbad
                  · simp at hbad
                  · rename_i insf h9
                    split at hbad
                    · simp at hbad
                    · rename_i hcond
                      apply hcond
                      obtain ⟨x8, hx8, hy8⟩ := calc_fee_rate_eq_some.mp h8
                      obtain ⟨x9, hx9, hy9⟩ := calc_fee_rate_eq_some.mp h9
                      obtain ⟨_, rfl⟩ := I80F48.unchecked_add_eq_some.mp h1
                      obtain ⟨_, rfl⟩ := I80F48.unchecked_add_eq_some.mp h2
                      obtain ⟨_, rfl⟩ := I80F48.checked_mul_eq_some.mp h4
                      obtain ⟨_, rfl⟩ := I80F48.checked_add_eq_some.mp h5
                      obtain ⟨_, rfl⟩ := I80F48.checked_mul_eq_some.mp h6
                      obtain ⟨_, rfl⟩ := I80F48.checked_add_eq_some.mp h7
                      obtain ⟨_, rfl⟩ := I80F48.checked_mul_eq_some.mp hx8
                      obtain ⟨_, rfl⟩ := I80F48.checked_add_eq_some.mp hy8
                      obtain ⟨_, rfl⟩ := I80F48.checked_mul_eq_some.mp hx9
                      obtain ⟨_, rfl⟩ := I80F48.checked_add_eq_some.mp hy9
                      refine ⟨?_, ?_, ?_, ?_⟩ <;> simp only [I80F48.one]
                      · exact Int.fdiv_nonneg (mul_nonneg hbase hu) fxScale_nonneg
                      · exact add_nonneg
                          (Int.fdiv_nonneg
                            (mul_nonneg hbase
                              (add_nonneg fxScale_nonneg (add_nonneg hpf hif)))
                            fxScale_nonneg)
                          (add_nonneg hpff hiff)
                      · exact add_nonneg
                          (Int.fdiv_nonneg (mul_nonneg hbase hpf) fxScale_nonneg) hpff
                      · exact add_nonneg
                          (Int.fdiv_nonneg (mul_nonneg hbase hif) fxScale_nonneg) hiff

/-- C8 witness: the assertions do not fire at the concrete knee configuration
under full utilization, every precondition discharged by evaluation. -/
theorem c8_witness : ircKnee.calc_interest_rate I80F48.one ≠ .fatal true :=
  (c8_rates_nonneg ircKnee I80F48.one (by decide) (by decide) (by decide) (by decide)
    (by decide) (by decide) (by decide) (by decide) (by decide)).1

/-- C6: the interest rate curve agrees everywhere with the specification's
piecewise description: below the knee the base rate is the fixed-point
evaluation of utilization / optimal * plateau, above it of
(utilization - optimal) / (1 - optimal) * (max - plateau) + plateau, and the
call yields no result exactly on division by zero (optimal utilization 0 in
the first branch, 1 in the second) or on arithmetic overflow. -/
theorem c6_interest_rate_curve_characterization (cfg : InterestRateConfig) (ur : I80F48) :
    cfg.interest_rate_curve ur = interest_rate_curve_spec cfg ur := by
  unfold InterestRateConfig.interest_rate_curve interest_rate_curve_spec
    I80F48.checked_div I80F48.checked_mul I80F48.checked_add I80F48.unchecked_sub
  simp only [I80F48.one]
  by_cases h1 : ur.bits ≤ cfg.optimal_utilization_rate.bits
  · simp only [if_pos h1]
    by_cases h2 : cfg.optimal_utilization_rate.bits = 0
    · simp [h2]
    · simp only [if_neg h2]
      by_cases h3 : fitsI128 (Int.fdiv (ur.bits * fxScale)
          cfg.optimal_utilization_rate.bits)
      · by_cases h4 : fitsI128 (Int.fdiv (Int.fdiv (ur.bits * fxScale)
            cfg.optimal_utilization_rate.bits * cfg.plateau_interest_rate.bits) fxScale)
        · simp [h3, h4]
        · simp [h3, h4]
      · simp [h3]
  · simp only [if_neg h1]
    by_cases h5 : fitsI128 (ur.bits - cfg.optimal_utilization_rate.bits)
    · by_cases h6 : fitsI128 (fxScale - cfg.optimal_utilization_rate.bits)
      · by_cases h7 : cfg.optimal_utilization_rate.bits = fxScale
        · have hz : fitsI128 (0 : Int) := by decide
          simp_all
        · have h7' : ¬(fxScale - cfg.optimal_utilization_rate.bits = 0) := by omega
          by_cases h8 : fitsI128 (Int.fdiv ((ur.bits -
              cfg.optimal_utilization_rate.bits) * fxScale)
              (fxScale - cfg.optimal_utilization_rate.bits))
          · by_cases h9 : fitsI128 (cfg.max_interest_rate.bits -
                cfg.plateau_interest_rate.bits)
            · by_cases h10 : fitsI128 (Int.fdiv (Int.fdiv ((ur.bits -
                  cfg.optimal_utilization_rate.bits) * fxScale)
                  (fxScale - cfg.optimal_utilization_rate.bits) *
                  (cfg.max_interest_rate.bits - cfg.plateau_interest_rate.bits)) fxScale)
              · by_cases h11 : fitsI128 (Int.fdiv (Int.fdiv ((ur.bits -
                    cfg.optimal_utilization_rate.bits) * fxScale)
                    (fxScale - cfg.optimal_utilization_rate.bits) *
                    (cfg.max_interest_rate.bits - cfg.plateau_interest_rate.bits)) fxScale +
                    cfg.plateau_interest_rate.bits)
                · simp [h5, h6, h7, h7', h8, h9, h10, h11]
                · simp [h5, h6, h7, h7', h8, h9, h10, h11]
              · simp [h5, h6, h7, h7', h8, h9, h10]
            · simp [h5, h6, h7, h7', h8, h9]
          · simp [h5, h6, h7, h7', h8]
      · simp [h5, h6]
    · simp [h5]

/-- C3: a successful accrue_interest call is exactly the composition the spec
describes: with time_delta = t - last_update, total deposit and liability
values from the share conversions, utilization their quotient, and the four
APRs from calc_interest_rate at that utilization, the new deposit share value
is old * (1 + (lending_apr / SECONDS_PER_YEAR) * time_delta), the new
liability share value is the analogue under the borrowing APR, last_update
becomes t, and the returned fees are total_liabilities *
(fee_apr / SECONDS_PER_YEAR) * time_delta truncated to integer token units. -/
theorem c3_accrue_success_formulas (b : Bank) (c : Clock) (gf insf : Int)
    (h : (b.accrue_interest c).1 = .ok gf insf) :
    ∃ td totD totL util l br g i gfee ifee,
      accrual_time_delta c.unix_timestamp b.last_update = some td ∧
      b.total_deposit_shares.checked_mul b.deposit_share_value = some totD ∧
      b.total_borrow_shares.checked_mul b.liability_share_value = some totL ∧
      totL.checked_div totD = some util ∧
      b.config.interest_rate_config.calc_interest_rate util = .res (l, br, g, i) ∧
      calc_accrued_interest_payment_per_period l td b.deposit_share_value =
        some (b.accrue_interest c).2.deposit_share_value ∧
      calc_accrued_interest_payment_per_period br td b.liability_share_value =
        some (b.accrue_interest c).2.liability_share_value ∧
      (b.accrue_interest c).2.last_update = c.unix_timestamp ∧
      calc_interest_payment_for_period g td totL = some gfee ∧
      gfee.to_num_u64 = some gf ∧
      calc_interest_payment_for_period i td totL = some ifee ∧
      ifee.to_num_u64 = some insf := by
  rcases hacc : b.accrue_interest c with ⟨o, b'⟩
  rw [hacc] at h
  simp only at h
  subst h
  simp only
  unfold Bank.accrue_interest at hacc
  split at hacc
  · simp at hacc
  · rename_i td htd
    split at hacc
    · simp at hacc
    · rename_i totD htotD
      split at hacc
      · simp at hacc
      · rename_i totL htotL
        split at hacc
        · simp at hacc
        · simp at hacc
        · rename_i dsv' lsv' gfc ifc hout
          split at hacc
          · simp at hacc
          · rename_i g' hg
            split at hacc
            · simp at hacc
            · rename_i i' hi
              simp only [Prod.mk.injEq, AccrueOut.ok.injEq] at hacc
              obtain ⟨⟨rfl, rfl⟩, rfl⟩ := hacc
              unfold calc_interest_rate_accrual_state_changes at hout
              split at hout
              · simp at hout
              · rename_i util hutil
                split at hout
                · simp at hout
                · simp at hout
                · rename_i l br g i hrates
                  split at hout
                  · rename_i a a2 a3 a4 ha1 ha2 ha3 ha4
                    simp only [CRes.res.injEq, Prod.mk.injEq] at hout
                    obtain ⟨rfl, rfl, rfl, rfl⟩ := hout
                    exact ⟨td, totD, totL, util, l, br, g, i, a3, a4,
                      htd, Bank.get_deposit_amount_eq_ok.mp htotD,
                      Bank.get_liability_amount_eq_ok.mp htotL, hutil, hrates,
                      ha1, ha2, rfl, ha3, hg, ha4, hi⟩
                  all_goals simp at hout

/-- C3 witness: the accrual formulas at the concrete fully-utilized bank over
one year. -/
theorem c3_witness :
    (bankFull.accrue_interest clockYear1).1 = .ok 0 0 ∧
      ∃ td totD totL util l br g i gfee ifee,
        accrual_time_delta clockYear1.unix_timestamp bankFull.last_update = some td ∧
        bankFull.total_deposit_shares.checked_mul bankFull.deposit_share_value =
          some totD ∧
        bankFull.total_borrow_shares.checked_mul bankFull.liability_share_value =
          some totL ∧
        totL.checked_div totD = some util ∧
        bankFull.config.interest_rate_config.calc_interest_rate util =
          .res (l, br, g, i) ∧
        calc_accrued_interest_payment_per_period l td bankFull.deposit_share_value =
          some (bankFull.accrue_interest clockYear1).2.deposit_share_value ∧
        calc_accrued_interest_payment_per_period br td bankFull.liability_share_value =
          some (bankFull.accrue_interest clockYear1).2.liability_share_value ∧
        (bankFull.accrue_interest clockYear1).2.last_update =
          clockYear1.unix_timestamp ∧
        calc_interest_payment_for_period g td totL = some gfee ∧
        gfee.to_num_u64 = some 0 ∧
        calc_interest_payment_for_period i td totL = some ifee ∧
        ifee.to_num_u64 = some 0 :=
  ⟨by decide, c3_accrue_success_formulas bankFull clockYear1 0 0 (by decide)⟩

/-- C2 counterexample: from the fully-utilized bank (base rate 1 at
utilization 1, so lending and borrowing APR are both 100 percent), accruing
one year twice multiplies the share values by about 4, while a single two-year
accrual multiplies them by about 3: the two-step result exceeds the one-step
result by about one full token unit per share (more than 0.5, i.e. more than
2^47 raw bits), far outside fixed-point rounding tolerance, refuting the
claimed equality. -/
theorem c2_counterexample :
    (bankFull.accrue_interest clockYear1).1 = .ok 0 0 ∧
      ((bankFull.accrue_interest clockYear1).2.accrue_interest clockYear2).1 =
        .ok 0 0 ∧
      (bankFull.accrue_interest clockYear2).1 = .ok 0 0 ∧
      2 ^ 47 <
        ((bankFull.accrue_interest clockYear1).2.accrue_interest
            clockYear2).2.deposit_share_value.bits -
          (bankFull.accrue_interest clockYear2).2.deposit_share_value.bits ∧
      2 ^ 47 <
        ((bankFull.accrue_interest clockYear1).2.accrue_interest
            clockYear2).2.liability_share_value.bits -
          (bankFull.accrue_interest clockYear2).2.liability_share_value.bits :=
  ⟨by decide, by decide, by decide, by decide, by decide⟩

theorem calc_accrued_interest_zero_delta (apr v a : I80F48)
    (hv : fitsI128 v.bits)
    (h : calc_accrued_interest_payment_per_period apr 0 v = some a) : a = v := by
  unfold calc_accrued_interest_payment_per_period at h
  split at h
  · simp at h
  · rename_i k hk
    split at h
    · simp at h
    · rename_i x hx
      split at h
      · simp at h
      · rename_i f hf
        obtain ⟨_, rfl⟩ := I80F48.checked_mul_eq_some.mp hx
        obtain ⟨_, rfl⟩ := I80F48.checked_add_eq_some.mp hf
        obtain ⟨hfit, ha⟩ := I80F48.checked_mul_eq_some.mp h
        rw [ha]
        simp only [I80F48.ofU64, I80F48.one, zero_mul, mul_zero, Int.zero_fdiv,
          add_zero]
        rw [Int.mul_fdiv_cancel _ fxScale_pos.ne']

/-- C2 (amended): successive accruals compound instead of adding; the claim
holds only degenerately.  A second accrual at an unchanged timestamp (second
time delta zero) leaves both share values unchanged whenever it succeeds, so
splitting d as d1 then 0 is harmless, but splitting a positive delta into two
positive pieces applies the second piece's rate to the already-grown share
values and can diverge from the single accrual by far more than rounding
tolerance, as the counterexample shows. -/
theorem c2_zero_delta_idempotent (b : Bank) (c : Clock) (gf insf : Int)
    (hdsv : fitsI128 b.deposit_share_value.bits)
    (hlsv : fitsI128 b.liability_share_value.bits)
    (ht : c.unix_timestamp = b.last_update)
    (h : (b.accrue_interest c).1 = .ok gf insf) :
    (b.accrue_interest c).2.deposit_share_value = b.deposit_share_value ∧
      (b.accrue_interest c).2.liability_share_value = b.liability_share_value := by
  have htd : accrual_time_delta c.unix_timestamp b.last_update = some 0 := by
    unfold accrual_time_delta i64_checked_sub u64_try_from
    rw [ht]
    norm_num
  rcases hacc : b.accrue_interest c with ⟨o, b'⟩
  rw [hacc] at h
  simp only at h
  subst h
  simp only
  unfold Bank.accrue_interest at hacc
  rw [htd] at hacc
  simp only at hacc
  split at hacc
  · simp at hacc
  · rename_i totD htotD
    split at hacc
    · simp at hacc
    · rename_i totL htotL
      split at hacc
      · simp at hacc
      · simp at hacc
      · rename_i dsv' lsv' gfc ifc hout
        split at hacc
        · simp at hacc
        · rename_i g' hg
          split at hacc
          · simp at hacc
          · rename_i i' hi
            simp only [Prod.mk.injEq, AccrueOut.ok.injEq] at hacc
            obtain ⟨⟨rfl, rfl⟩, rfl⟩ := hacc
            unfold calc_interest_rate_accrual_state_changes at hout
            split at hout
            · simp at hout
            · rename_i util hutil
              split at hout
              · simp at hout
              · simp at hout
              · rename_i l br g i hrates
                split at hout
                · rename_i a a2 a3 a4 ha1 ha2 ha3 ha4
                  simp only [CRes.res.injEq, Prod.mk.injEq] at hout
                  obtain ⟨rfl, rfl, rfl, rfl⟩ := hout
                  exact ⟨calc_accrued_interest_zero_delta l b.deposit_share_value a
                      hdsv ha1,
                    calc_accrued_interest_zero_delta br b.liability_share_value a2
                      hlsv ha2⟩
                all_goals simp at hout

/-- C2 witness for the amended claim: re-accruing the fully-utilized bank at
its creation timestamp succeeds and leaves both share values in place. -/
theorem c2_witness :
    fitsI128 bankFull.deposit_share_value.bits ∧
      clockZero.unix_timestamp = bankFull.last_update ∧
      (bankFull.accrue_interest clockZero).1 = .ok 0 0 ∧
      (bankFull.accrue_interest clockZero).2.deposit_share_value =
        bankFull.deposit_share_value ∧
      (bankFull.accrue_interest clockZero).2.liability_share_value =
        bankFull.liability_share_value :=
  ⟨by decide, by decide, by decide,
    (c2_zero_delta_idempotent bankFull clockZero 0 0 (by decide) (by decide)
      (by decide) (by decide)).1,
    (c2_zero_delta_idempotent bankFull clockZero 0 0 (by decide) (by decide)
      (by decide) (by decide)).2⟩
